import Mathlib

/-!
Shallow embedding of the Notes-WebApp backend core: the Note Store, the
Version Archive (NoteVersion model with its pre-save 20-cap eviction hook),
the Sharing & Access Control controllers, and the Reminder Scheduler sweep.

Each definition translates one JavaScript function or Mongoose schema hook
from the repository:
  * `Note` / `NoteVersion`      — backend/models (Note.js, NoteVersion.js)
  * `updateNote`, `getNoteById`, `deleteNote`
                                — backend/controllers/noteController.js
  * `createVersion`, `getVersionHistory`, `getVersion`, `restoreVersion`
                                — version controller
  * `shareNote`, `getSharedNote`, `respondToShareRequest`
                                — share controller
  * `insertVersion`             — noteVersionSchema.pre('save') hook
  * `checkReminders`            — backend/services/reminderScheduler.js

Ids and timestamps are modelled as `Nat`; MongoDB error statuses are the
`Err` kind (404 NotFound, 403 Forbidden, 400 InvalidArgument/Conflict,
410 Gone).  Request handlers become pure functions from a `Store` to
`Except Err _`.
-/

namespace NotesApp

/-- Share permission, the `permission` enum {view, edit} of the Note schema. -/
inductive Permission where
  | view
  | edit
deriving DecidableEq, Repr

/-- Share grant status, the `status` enum {pending, accepted}. -/
inductive ShareStatus where
  | pending
  | accepted
deriving DecidableEq, Repr

/-- Reminder status, the `reminderStatus` enum {pending, sent, none}. -/
inductive ReminderStatus where
  | none
  | pending
  | sent
deriving DecidableEq, Repr

/-- One entry of a note's `sharedWith` array. -/
structure ShareGrant where
  userId : Nat
  permission : Permission
  sharedAt : Nat
  status : ShareStatus
deriving DecidableEq, Repr

/-- One entry of a note's `attachments` array. -/
structure Attachment where
  url : String
  publicId : String
  kind : String
  name : String
  size : Nat
deriving DecidableEq, Repr

/-- A Note document (backend/models/Note.js). -/
structure Note where
  id : Nat
  title : String
  content : String
  userId : Nat
  isPinned : Bool
  isArchived : Bool
  tags : List String
  attachments : List Attachment
  reminderAt : Option Nat
  reminderStatus : ReminderStatus
  sharedWith : List ShareGrant
  shareToken : Option String
  shareTokenExpiry : Option Nat
  createdAt : Nat
  updatedAt : Nat
deriving DecidableEq, Repr

/-- A NoteVersion document (backend/models/NoteVersion.js). -/
structure NoteVersion where
  id : Nat
  noteId : Nat
  title : String
  content : String
  tags : List String
  versionNumber : Nat
  createdBy : Nat
  createdAt : Nat
deriving DecidableEq, Repr

/-- A User document, restricted to the fields the share controller reads. -/
structure User where
  id : Nat
  name : String
  email : String
deriving DecidableEq, Repr

/-- The database: the `notes` and `noteversions` collections, plus a fresh-id
counter standing in for MongoDB ObjectId generation. -/
structure Store where
  notes : List Note
  versions : List NoteVersion
  nextVersionId : Nat
deriving DecidableEq, Repr

/-- Error kinds carried by thrown HTTP errors: 404, 403, 400 (malformed /
self-share), 400 "already shared", 410. -/
inductive Err where
  | NotFound
  | Forbidden
  | InvalidArgument
  | Conflict
  | Gone
deriving DecidableEq, Repr

/-- `Note.findById` — first note in the collection with the given id. -/
def findNote (s : Store) (noteId : Nat) : Option Note :=
  s.notes.find? (fun n => n.id == noteId)

/-- `NoteVersion.find({ noteId })` — all versions belonging to one note. -/
def versionsFor (s : Store) (noteId : Nat) : List NoteVersion :=
  s.versions.filter (fun v => v.noteId == noteId)

/-- `NoteVersion.countDocuments({ noteId })`. -/
def versionCount (s : Store) (noteId : Nat) : Nat :=
  (versionsFor s noteId).length

/-- `note.save()` — write the modified note back, with the mongoose
`timestamps` option bumping `updatedAt`. -/
def saveNote (s : Store) (n : Note) (now : Nat) : Store :=
  { s with notes := s.notes.map (fun m => if m.id == n.id then { n with updatedAt := now } else m) }

/-- Creation time of the oldest version in the list (the document
`findOneAndDelete({noteId}, {sort: {createdAt: 1}})` targets). -/
def oldestCreatedAt (l : List NoteVersion) : Nat :=
  match l with
  | [] => 0
  | w :: ws => ws.foldl (fun acc v => min acc v.createdAt) w.createdAt

/-- `noteVersionSchema.pre('save')` followed by the save itself: if the note
already has ≥ 20 versions, delete the oldest one (by `createdAt`, first match
in collection order), then insert the new version. -/
def insertVersion (s : Store) (v : NoteVersion) : Store :=
  let old := versionsFor s v.noteId
  let s1 :=
    if 20 ≤ old.length then
      { s with versions :=
          s.versions.eraseP (fun x => x.noteId == v.noteId && x.createdAt == oldestCreatedAt old) }
    else s
  { s1 with versions := s1.versions ++ [v] }

/-- JavaScript `x || d` for an optional string field: `undefined`, `null` and
`""` are falsy and keep the stored value. -/
def jsOr (o : Option String) (d : String) : String :=
  match o with
  | Option.none => d
  | some str => if str = "" then d else str

/-- The `req.body` of PUT /api/notes/:id.  `Option.none` is an absent
(`undefined`) field; `reminderAt = some Option.none` is an explicit `null`. -/
structure UpdateReq where
  title : Option String
  content : Option String
  tags : Option (List String)
  isPinned : Option Bool
  isArchived : Option Bool
  reminderAt : Option (Option Nat)
  reminderStatus : Option ReminderStatus
deriving DecidableEq, Repr

/-- `updateNote` (noteController.js): 404 if the note is missing, 403 unless
the caller is the owner, then field-wise update — `title`/`content` through
`x || old`, the rest through `x !== undefined ? x : old` — and save. -/
def updateNote (s : Store) (caller noteId : Nat) (r : UpdateReq) (now : Nat) :
    Except Err (Store × Note) :=
  match findNote s noteId with
  | Option.none => .error .NotFound
  | some note =>
    if note.userId != caller then .error .Forbidden
    else
      let n : Note := { note with
        title := jsOr r.title note.title
        content := jsOr r.content note.content
        tags := r.tags.getD note.tags
        isPinned := r.isPinned.getD note.isPinned
        isArchived := r.isArchived.getD note.isArchived
        reminderAt := r.reminderAt.getD note.reminderAt
        reminderStatus := r.reminderStatus.getD note.reminderStatus
        updatedAt := now }
      .ok (saveNote s n now, n)

/-- `getNoteById` (noteController.js): 404 if missing, 403 unless the caller
is the owner, else return the note. -/
def getNoteById (s : Store) (caller noteId : Nat) : Except Err Note :=
  match findNote s noteId with
  | Option.none => .error .NotFound
  | some note =>
    if note.userId != caller then .error .Forbidden
    else .ok note

/-- `deleteNote` (noteController.js): 404 if missing, 403 unless owner, then
attachment cleanup against object storage (external side effect, logged and
swallowed) and `note.deleteOne()`.  Only the `notes` collection changes. -/
def deleteNote (s : Store) (caller noteId : Nat) : Except Err Store :=
  match findNote s noteId with
  | Option.none => .error .NotFound
  | some note =>
    if note.userId != caller then .error .Forbidden
    else .ok { s with notes := s.notes.filter (fun m => m.id != note.id) }

/-- The `hasAccess` check of the version controller's read endpoints: owner,
or *any* entry of `sharedWith` naming the caller — the grant `status` is not
consulted. -/
def hasVersionReadAccess (note : Note) (caller : Nat) : Bool :=
  note.userId == caller || note.sharedWith.any (fun g => g.userId == caller)

/-- `createVersion` (version controller): 404, then owner-only 403, then a new
NoteVersion with `versionNumber = countDocuments({noteId}) + 1`, inserted
through the pre-save capped-insert hook. -/
def createVersion (s : Store) (caller noteId now : Nat) :
    Except Err (Store × NoteVersion) :=
  match findNote s noteId with
  | Option.none => .error .NotFound
  | some note =>
    if note.userId != caller then .error .Forbidden
    else
      let v : NoteVersion := {
        id := s.nextVersionId
        noteId := note.id
        title := note.title
        content := note.content
        tags := note.tags
        versionNumber := versionCount s note.id + 1
        createdBy := caller
        createdAt := now }
      let s1 := insertVersion s v
      .ok ({ s1 with nextVersionId := s.nextVersionId + 1 }, v)

/-- Summary projection returned by the history listing
(`.select('title versionNumber createdAt')`). -/
structure VersionSummary where
  title : String
  versionNumber : Nat
  createdAt : Nat
deriving DecidableEq, Repr

/-- Insertion sort on `createdAt`, newest first (`.sort({ createdAt: -1 })`). -/
def insertByNewest (v : NoteVersion) : List NoteVersion → List NoteVersion
  | [] => [v]
  | w :: ws => if w.createdAt ≤ v.createdAt then v :: w :: ws else w :: insertByNewest v ws

/-- Sort versions newest first. -/
def sortByNewest : List NoteVersion → List NoteVersion
  | [] => []
  | v :: vs => insertByNewest v (sortByNewest vs)

/-- `getVersionHistory` (version controller): 404 if the note is missing, 403
unless owner or *any* grantee (status ignored), else the note's versions
newest-first, capped at 20, summary fields only. -/
def getVersionHistory (s : Store) (caller noteId : Nat) :
    Except Err (List VersionSummary) :=
  match findNote s noteId with
  | Option.none => .error .NotFound
  | some note =>
    if !(hasVersionReadAccess note caller) then .error .Forbidden
    else .ok (((sortByNewest (versionsFor s noteId)).take 20).map
      (fun v => { title := v.title, versionNumber := v.versionNumber, createdAt := v.createdAt }))

/-- `getVersion` (version controller): same access check as the history
listing, then `findOne({_id: versionId, noteId})`, 404 if absent. -/
def getVersion (s : Store) (caller noteId versionId : Nat) : Except Err NoteVersion :=
  match findNote s noteId with
  | Option.none => .error .NotFound
  | some note =>
    if !(hasVersionReadAccess note caller) then .error .Forbidden
    else
      match s.versions.find? (fun v => v.id == versionId && v.noteId == note.id) with
      | Option.none => .error .NotFound
      | some v => .ok v

/-- `restoreVersion` (version controller): 404 for the note, owner-only 403,
404 for the version; then snapshot the *current* title/content/tags (through
the capped insert) and overwrite the note's title/content/tags from the
target version. -/
def restoreVersion (s : Store) (caller noteId versionId now : Nat) :
    Except Err (Store × Note) :=
  match findNote s noteId with
  | Option.none => .error .NotFound
  | some note =>
    if note.userId != caller then .error .Forbidden
    else
      match s.versions.find? (fun v => v.id == versionId && v.noteId == note.id) with
      | Option.none => .error .NotFound
      | some v =>
        let snap : NoteVersion := {
          id := s.nextVersionId
          noteId := note.id
          title := note.title
          content := note.content
          tags := note.tags
          versionNumber := versionCount s note.id + 1
          createdBy := caller
          createdAt := now }
        let s1 := { insertVersion s snap with nextVersionId := s.nextVersionId + 1 }
        let n : Note := { note with title := v.title, content := v.content, tags := v.tags }
        .ok (saveNote s1 n now, n)

/-- ASCII lowercasing of a string, character by character (JavaScript
`toLowerCase` on the ASCII identities used here). -/
def lowerAscii (s : String) : String :=
  String.mk (s.data.map Char.toLower)

/-- `User.findOne({email: new RegExp(caret email dollar, 'i')})` — resolve a
grantee by case-insensitive email match. -/
def findUserByEmail (users : List User) (email : String) : Option User :=
  users.find? (fun u => lowerAscii u.email == lowerAscii email)

/-- `shareNote` (share controller): 400 on empty email (the permission enum is
enforced by the `Permission` type), 404 on missing note, owner-only 403, 404
when the email resolves to no user, 400 on self-share; then: an existing grant
for the grantee has its permission updated in place when it differs (status
untouched), an identical grant is a 400 "already shared", and otherwise a new
grant is appended with status `pending`. -/
def shareNote (s : Store) (users : List User) (caller noteId : Nat)
    (email : String) (perm : Permission) (now : Nat) : Except Err Store :=
  if email = "" then .error .InvalidArgument
  else
    match findNote s noteId with
    | Option.none => .error .NotFound
    | some note =>
      if note.userId != caller then .error .Forbidden
      else
        match findUserByEmail users email with
        | Option.none => .error .NotFound
        | some target =>
          if target.id == caller then .error .InvalidArgument
          else
            match note.sharedWith.find? (fun g => g.userId == target.id) with
            | some g =>
              if g.permission != perm then
                let grants := note.sharedWith.map (fun x =>
                  if x.userId == target.id then { x with permission := perm } else x)
                .ok (saveNote s { note with sharedWith := grants } now)
              else .error .Conflict
            | Option.none =>
              let grants := note.sharedWith ++
                [{ userId := target.id, permission := perm,
                   sharedAt := now, status := ShareStatus.pending }]
              .ok (saveNote s { note with sharedWith := grants } now)

/-- The read-only projection returned by the public share-link endpoint:
only content fields, timestamps, and the owner's display name — no
`sharedWith`, `shareToken`, reminder or flag fields. -/
structure SharedNoteProjection where
  id : Nat
  title : String
  content : String
  tags : List String
  attachments : List Attachment
  createdAt : Nat
  updatedAt : Nat
  owner : String
deriving DecidableEq, Repr

/-- Build the projection (`populate('userId', 'name email')` then pick
`note.userId.name`). -/
def projectSharedNote (users : List User) (note : Note) : SharedNoteProjection :=
  { id := note.id
    title := note.title
    content := note.content
    tags := note.tags
    attachments := note.attachments
    createdAt := note.createdAt
    updatedAt := note.updatedAt
    owner := ((users.find? (fun u => u.id == note.userId)).map User.name).getD "" }

/-- `getSharedNote` (share controller, public route): 404 when no note stores
the token, 410 when `shareTokenExpiry` is set and `now` has passed it, else
the read-only projection with permission fixed to `view`. -/
def getSharedNote (s : Store) (users : List User) (token : String) (now : Nat) :
    Except Err (SharedNoteProjection × Permission) :=
  match s.notes.find? (fun n => n.shareToken == some token) with
  | Option.none => .error .NotFound
  | some note =>
    match note.shareTokenExpiry with
    | some e =>
      if e < now then .error .Gone
      else .ok (projectSharedNote users note, Permission.view)
    | Option.none => .ok (projectSharedNote users note, Permission.view)

/-- Replace the first list element satisfying `p` by `f` of it
(`sharedWith[findIndex(...)]` mutation). -/
def updateFirst (p : ShareGrant → Bool) (f : ShareGrant → ShareGrant) :
    List ShareGrant → List ShareGrant
  | [] => []
  | g :: gs => if p g then f g :: gs else g :: updateFirst p f gs

/-- `respondToShareRequest` (share controller): 404 on missing note or when the
caller holds no grant; `rejected` removes the grant, `accepted` sets its
status to `accepted`. -/
def respondToShareRequest (s : Store) (caller noteId : Nat) (accept : Bool) (now : Nat) :
    Except Err Store :=
  match findNote s noteId with
  | Option.none => .error .NotFound
  | some note =>
    match note.sharedWith.find? (fun g => g.userId == caller) with
    | Option.none => .error .NotFound
    | some _ =>
      if accept then
        let grants := updateFirst (fun g => g.userId == caller)
          (fun g => { g with status := ShareStatus.accepted }) note.sharedWith
        .ok (saveNote s { note with sharedWith := grants } now)
      else
        let grants := note.sharedWith.eraseP (fun g => g.userId == caller)
        .ok (saveNote s { note with sharedWith := grants } now)

/-- A note is selected by the reminder sweep's query
`{reminderAt: {lte: now}, reminderStatus: 'pending'}`. -/
def dueForReminder (now : Nat) (n : Note) : Bool :=
  (match n.reminderAt with
   | some t => decide (t ≤ now)
   | Option.none => false) && n.reminderStatus == ReminderStatus.pending

/-- `checkReminders` (reminderScheduler.js): select the due pending notes, and
for each attempt one email dispatch — modelled by the oracle `dispatchOk` —
marking the note `sent` on success and leaving it `pending` on failure, the
per-note try/catch isolating failures.  Returns the updated notes collection
together with the ids of the notes a dispatch was attempted for. -/
def checkReminders (notes : List Note) (dispatchOk : Nat → Bool) (now : Nat) :
    List Note × List Nat :=
  (notes.map (fun n =>
      if dueForReminder now n && dispatchOk n.id then
        { n with reminderStatus := ReminderStatus.sent, updatedAt := now }
      else n),
   (notes.filter (dueForReminder now)).map Note.id)

/-! ### General list lemmas used by the verification -/


theorem foldl_min_le_init (a : Nat) (l : List Nat) : l.foldl min a ≤ a := by
  induction l generalizing a with
  | nil => exact Nat.le_refl a
  | cons b t ih => exact Nat.le_trans (ih (min a b)) (Nat.min_le_left a b)

theorem foldl_min_le_mem (a x : Nat) (l : List Nat) (hx : x ∈ l) : l.foldl min a ≤ x := by
  induction l generalizing a with
  | nil => cases hx
  | cons b t ih =>
    rcases List.mem_cons.mp hx with h | h
    · subst h
      exact Nat.le_trans (foldl_min_le_init (min a x) t) (Nat.min_le_right a x)
    · exact ih (min a b) h

theorem foldl_min_eq_init_or_mem (a : Nat) (l : List Nat) :
    l.foldl min a = a ∨ l.foldl min a ∈ l := by
  induction l generalizing a with
  | nil => exact Or.inl rfl
  | cons b t ih =>
    rcases ih (min a b) with h | h
    · rcases Nat.le_total a b with hab | hba
      · left
        rw [List.foldl_cons, h, Nat.min_eq_left hab]
      · right
        rw [List.foldl_cons, h, Nat.min_eq_right hba]
        exact List.mem_cons_self b t
    · exact Or.inr (List.mem_cons_of_mem b h)

theorem oldestCreatedAt_le (l : List NoteVersion) (w : NoteVersion) (hw : w ∈ l) :
    oldestCreatedAt l ≤ w.createdAt := by
  match l with
  | [] => cases hw
  | v :: vs =>
    show (vs.foldl (fun acc x => min acc x.createdAt) v.createdAt) ≤ w.createdAt
    have hfold : vs.foldl (fun acc x => min acc x.createdAt) v.createdAt
        = (vs.map NoteVersion.createdAt).foldl min v.createdAt := by
      rw [List.foldl_map]
    rcases List.mem_cons.mp hw with h | h
    · subst h
      rw [hfold]
      exact foldl_min_le_init _ _
    · rw [hfold]
      exact foldl_min_le_mem _ _ _ (List.mem_map_of_mem NoteVersion.createdAt h)

theorem oldestCreatedAt_mem (l : List NoteVersion) (hne : l ≠ []) :
    ∃ w ∈ l, w.createdAt = oldestCreatedAt l := by
  match l with
  | [] => exact absurd rfl hne
  | v :: vs =>
    show ∃ w ∈ v :: vs, w.createdAt = vs.foldl (fun acc x => min acc x.createdAt) v.createdAt
    have hfold : vs.foldl (fun acc x => min acc x.createdAt) v.createdAt
        = (vs.map NoteVersion.createdAt).foldl min v.createdAt := by
      rw [List.foldl_map]
    rcases foldl_min_eq_init_or_mem v.createdAt (vs.map NoteVersion.createdAt) with h | h
    · exact ⟨v, List.mem_cons_self v vs, by rw [hfold, h]⟩
    · rcases List.mem_map.mp h with ⟨w, hwmem, hweq⟩
      exact ⟨w, List.mem_cons_of_mem v hwmem, by rw [hfold, hweq]⟩

theorem filter_eraseP_comm {α : Type} (p q : α → Bool) (l : List α)
    (h : ∀ x, q x = true → p x = true) :
    (l.eraseP q).filter p = (l.filter p).eraseP q := by
  induction l with
  | nil => rfl
  | cons x t ih =>
    by_cases hq : q x = true
    · rw [List.eraseP_cons_of_pos hq, List.filter_cons, if_pos (h x hq),
        List.eraseP_cons_of_pos hq]
    · rw [List.eraseP_cons_of_neg (by simpa using hq), List.filter_cons, List.filter_cons]
      by_cases hp : p x = true
      · rw [if_pos hp, if_pos hp, List.eraseP_cons_of_neg (by simpa using hq), ih]
      · rw [if_neg (by simpa using hp), if_neg (by simpa using hp), ih]

theorem eraseP_congr {α : Type} (p q : α → Bool) (l : List α)
    (h : ∀ x ∈ l, p x = q x) :
    l.eraseP p = l.eraseP q := by
  induction l with
  | nil => rfl
  | cons x t ih =>
    have hx := h x (List.mem_cons_self x t)
    by_cases hp : p x = true
    · rw [List.eraseP_cons_of_pos hp, List.eraseP_cons_of_pos (hx ▸ hp)]
    · rw [List.eraseP_cons_of_neg (by simpa using hp),
        List.eraseP_cons_of_neg (by rw [← hx]; simpa using hp),
        ih (fun y hy => h y (List.mem_cons_of_mem x hy))]


theorem find?_saveNote_aux (l : List Note) (i : Nat) (note n : Note) (now : Nat)
    (hfind : l.find? (fun m => m.id == i) = some note) (hid : n.id = note.id) :
    (l.map (fun m => if m.id == n.id then { n with updatedAt := now } else m)).find?
        (fun m => m.id == i) = some { n with updatedAt := now } := by
  have hni : note.id = i := by simpa using List.find?_some hfind
  induction l with
  | nil => simp at hfind
  | cons hd t ih =>
    by_cases hhd : hd.id = i
    · have hnote : hd = note := by
        rw [List.find?_cons_of_pos t (by simpa using hhd)] at hfind
        simpa using hfind
      have h1 : hd.id = n.id := by rw [hid, ← hnote]
      simp only [List.map_cons, h1, beq_self_eq_true, if_true]
      exact List.find?_cons_of_pos _ (by simp [hid, hni])
    · have h2 : ¬ hd.id = n.id := fun hcon => hhd (by rw [hcon, hid, hni])
      rw [List.find?_cons_of_neg t (by simpa using hhd)] at hfind
      have h2b : (hd.id == n.id) = false := by simpa using h2
      simp only [List.map_cons, h2b, Bool.false_eq_true, if_false]
      rw [List.find?_cons_of_neg _ (by simpa using hhd)]
      exact ih hfind

/-- Lookup after `saveNote`: saving a note found by `findById` makes the saved
copy (with bumped `updatedAt`) what a subsequent `findById` returns. -/
theorem findNote_saveNote (s : Store) (i now : Nat) (note n : Note)
    (hfind : findNote s i = some note) (hid : n.id = note.id) :
    findNote (saveNote s n now) i = some { n with updatedAt := now } :=
  find?_saveNote_aux s.notes i note n now hfind hid

/-! ### Concrete fixtures for witnesses and counterexamples -/

/-- A plain note owned by user 10. -/
def sampleNote : Note :=
  { id := 1, title := "t", content := "c", userId := 10, isPinned := false,
    isArchived := false, tags := ["work"], attachments := [],
    reminderAt := Option.none, reminderStatus := ReminderStatus.none,
    sharedWith := [], shareToken := Option.none, shareTokenExpiry := Option.none,
    createdAt := 0, updatedAt := 0 }

/-- An accepted `edit` grant for user 20. -/
def grantEditAccepted : ShareGrant :=
  { userId := 20, permission := Permission.edit, sharedAt := 1,
    status := ShareStatus.accepted }

/-- A pending `view` grant for user 20. -/
def grantViewPending : ShareGrant :=
  { userId := 20, permission := Permission.view, sharedAt := 1,
    status := ShareStatus.pending }

/-- The sample note shared with user 20 as accepted editor. -/
def noteSharedEdit : Note := { sampleNote with sharedWith := [grantEditAccepted] }

/-- The sample note with a pending share for user 20. -/
def noteSharedPending : Note := { sampleNote with sharedWith := [grantViewPending] }

/-- Store holding only the accepted-editor note. -/
def storeSharedEdit : Store :=
  { notes := [noteSharedEdit], versions := [], nextVersionId := 0 }

/-- Store holding only the pending-share note. -/
def storeSharedPending : Store :=
  { notes := [noteSharedPending], versions := [], nextVersionId := 0 }

/-- An update request changing title, content and tags. -/
def sampleEdit : UpdateReq :=
  { title := some "new title", content := some "new content", tags := some ["x"],
    isPinned := Option.none, isArchived := Option.none,
    reminderAt := Option.none, reminderStatus := Option.none }

/-! ### C1 — who may run the note-update operation -/

/-- C1 counterexample: user 20 holds a share grant on note 1 with permission
`edit` and status `accepted`, is not the owner, and their update request is
rejected with Forbidden rather than applied. -/
theorem C1_counterexample :
    noteSharedEdit.sharedWith = [grantEditAccepted] ∧
    grantEditAccepted.permission = Permission.edit ∧
    grantEditAccepted.status = ShareStatus.accepted ∧
    grantEditAccepted.userId = 20 ∧
    noteSharedEdit.userId ≠ 20 ∧
    updateNote storeSharedEdit 20 1 sampleEdit 5 = .error .Forbidden :=
  ⟨rfl, rfl, rfl, rfl, by decide, by rfl⟩

/-- C1 (amended): the note-update operation is owner-only — every caller other
than the owner, including a user holding an accepted `edit` grant, fails with
Forbidden; the owner's update succeeds and mutates title, content and tags as
requested. -/
theorem C1_update_owner_only (s : Store) (caller noteId now : Nat) (r : UpdateReq)
    (note : Note) (hfind : findNote s noteId = some note) :
    (note.userId ≠ caller → updateNote s caller noteId r now = .error .Forbidden) ∧
    (note.userId = caller → ∃ n : Note,
      updateNote s caller noteId r now = .ok (saveNote s n now, n) ∧
      n.title = jsOr r.title note.title ∧
      n.content = jsOr r.content note.content ∧
      n.tags = r.tags.getD note.tags) := by
  constructor
  · intro hne
    simp [updateNote, findNote] at hfind ⊢
    simp [hfind, hne]
  · intro heq
    refine ⟨{ note with
        title := jsOr r.title note.title,
        content := jsOr r.content note.content,
        tags := r.tags.getD note.tags,
        isPinned := r.isPinned.getD note.isPinned,
        isArchived := r.isArchived.getD note.isArchived,
        reminderAt := r.reminderAt.getD note.reminderAt,
        reminderStatus := r.reminderStatus.getD note.reminderStatus,
        updatedAt := now }, ?_, rfl, rfl, rfl⟩
    simp [updateNote, findNote] at hfind ⊢
    simp [hfind, heq]

/-- C1 witness: at the concrete shared store, the non-owner editor (user 20)
gets Forbidden and the owner (user 10) gets the requested mutation. -/
theorem C1_update_owner_only_witness :
    (updateNote storeSharedEdit 20 1 sampleEdit 5 = .error .Forbidden) ∧
    (∃ n : Note, updateNote storeSharedEdit 10 1 sampleEdit 5 =
        .ok (saveNote storeSharedEdit n 5, n) ∧
      n.title = jsOr sampleEdit.title noteSharedEdit.title ∧
      n.content = jsOr sampleEdit.content noteSharedEdit.content ∧
      n.tags = sampleEdit.tags.getD noteSharedEdit.tags) :=
  ⟨(C1_update_owner_only storeSharedEdit 20 1 5 sampleEdit noteSharedEdit rfl).1
      (by decide),
   (C1_update_owner_only storeSharedEdit 10 1 5 sampleEdit noteSharedEdit rfl).2 rfl⟩

/-! ### C2 — read access to a note and its version history -/

/-- C2 counterexample: user 20 holds only a `pending` grant on note 1 (so is
not an accepted grantee), yet the version-history read succeeds with an
empty listing instead of failing with Forbidden. -/
theorem C2_counterexample :
    noteSharedPending.userId ≠ 20 ∧
    noteSharedPending.sharedWith = [grantViewPending] ∧
    grantViewPending.status = ShareStatus.pending ∧
    grantViewPending.userId = 20 ∧
    getVersionHistory storeSharedPending 20 1 = .ok [] :=
  ⟨by decide, rfl, rfl, rfl, by rfl⟩

/-- C2 (amended): a caller who is neither the owner nor named by *any* share
grant gets Forbidden from get-note-by-id, version-history listing, and
get-version; get-note-by-id is in fact owner-only; but the version read
endpoints ignore grant status, so a grantee whose grant is still `pending`
can read the version history. -/
theorem C2_read_access (s : Store) (caller noteId versionId : Nat) (note : Note)
    (hfind : findNote s noteId = some note) (hown : note.userId ≠ caller) :
    ((∀ g ∈ note.sharedWith, g.userId ≠ caller) →
      getNoteById s caller noteId = .error .Forbidden ∧
      getVersionHistory s caller noteId = .error .Forbidden ∧
      getVersion s caller noteId versionId = .error .Forbidden) ∧
    (getNoteById s caller noteId = .error .Forbidden) ∧
    ((∃ g ∈ note.sharedWith, g.userId = caller) →
      ∃ l, getVersionHistory s caller noteId = .ok l) := by
  have hfind' : s.notes.find? (fun n => n.id == noteId) = some note := hfind
  refine ⟨?_, ?_, ?_⟩
  · intro hA
    have h1 : (note.userId == caller) = false := by simpa using hown
    have h2 : (note.sharedWith.any (fun g => g.userId == caller)) = false := by
      rw [List.any_eq_false]
      intro g hg
      simpa using hA g hg
    have hacc : hasVersionReadAccess note caller = false := by
      simp [hasVersionReadAccess, h1, h2]
    refine ⟨?_, ?_, ?_⟩
    · simp [getNoteById, findNote, hfind', hown]
    · simp [getVersionHistory, findNote, hfind', hacc]
    · simp [getVersion, findNote, hfind', hacc]
  · simp [getNoteById, findNote, hfind', hown]
  · intro hB
    have hacc : hasVersionReadAccess note caller = true := by
      rcases hB with ⟨g, hg, hgid⟩
      simp [hasVersionReadAccess, List.any_eq_true]
      exact Or.inr ⟨g, hg, by simpa using hgid⟩
    refine ⟨((sortByNewest (versionsFor s noteId)).take 20).map
      (fun v => { title := v.title, versionNumber := v.versionNumber,
                  createdAt := v.createdAt }), ?_⟩
    simp [getVersionHistory, findNote, hfind', hacc, List.map_take]

/-- C2 witness: at concrete stores — a stranger (user 30, no grant) gets
Forbidden everywhere, and the pending grantee (user 20) successfully lists
version history. -/
theorem C2_read_access_witness :
    (getNoteById storeSharedPending 30 1 = .error .Forbidden ∧
     getVersionHistory storeSharedPending 30 1 = .error .Forbidden ∧
     getVersion storeSharedPending 30 1 0 = .error .Forbidden) ∧
    (∃ l, getVersionHistory storeSharedPending 20 1 = .ok l) :=
  ⟨(C2_read_access storeSharedPending 30 1 0 noteSharedPending rfl (by decide)).1
      (by decide),
   (C2_read_access storeSharedPending 20 1 0 noteSharedPending rfl (by decide)).2.2
      ⟨grantViewPending, by simp [noteSharedPending], rfl⟩⟩

/-! ### C3 — deleting a note and the Version Archive -/

/-- A stored snapshot of the sample note. -/
def sampleVersion : NoteVersion :=
  { id := 0, noteId := 1, title := "t", content := "c", tags := ["work"],
    versionNumber := 1, createdBy := 10, createdAt := 3 }

/-- Store holding the sample note and one snapshot of it. -/
def storeWithVersion : Store :=
  { notes := [sampleNote], versions := [sampleVersion], nextVersionId := 1 }

/-- C3 counterexample: the owner deletes note 1 while a snapshot referencing
note 1 is stored; the delete succeeds but the snapshot referencing the
deleted note remains in the store. -/
theorem C3_counterexample :
    sampleVersion.noteId = 1 ∧
    sampleNote.userId = 10 ∧
    deleteNote storeWithVersion 10 1 =
      .ok { notes := [], versions := [sampleVersion], nextVersionId := 1 } :=
  ⟨rfl, rfl, by rfl⟩

/-- C3 (amended): the owner's delete removes the note from the note store but
does not cascade to the Version Archive — the `versions` collection is left
exactly as it was, so snapshots referencing the deleted note's id survive. -/
theorem C3_delete_no_cascade (s : Store) (caller noteId : Nat) (note : Note)
    (hfind : findNote s noteId = some note) (hown : note.userId = caller) :
    ∃ s', deleteNote s caller noteId = .ok s' ∧
      findNote s' noteId = Option.none ∧
      s'.versions = s.versions := by
  have hfind' : s.notes.find? (fun n => n.id == noteId) = some note := hfind
  have hid : note.id = noteId := by
    simpa using List.find?_some hfind'
  refine ⟨{ s with notes := s.notes.filter (fun m => m.id != note.id) }, ?_, ?_, rfl⟩
  · simp [deleteNote, findNote] at hfind ⊢
    simp [hfind, hown]
  · rw [findNote, List.find?_eq_none]
    intro x hx
    have hx' : x ∈ s.notes.filter (fun m => m.id != note.id) := hx
    have hne : (x.id != note.id) = true := (List.mem_filter.mp hx').2
    simp only [bne_iff_ne] at hne
    simpa [hid] using hne

/-- C3 witness: the concrete one-note one-snapshot store after the owner's
delete — note gone, snapshot still present. -/
theorem C3_delete_no_cascade_witness :
    ∃ s', deleteNote storeWithVersion 10 1 = .ok s' ∧
      findNote s' 1 = Option.none ∧
      s'.versions = storeWithVersion.versions :=
  C3_delete_no_cascade storeWithVersion 10 1 sampleNote rfl rfl

/-! ### C4 — version sequence numbers -/

/-- Store holding just the sample note and an empty Version Archive. -/
def storeOnlyNote : Store :=
  { notes := [sampleNote], versions := [], nextVersionId := 0 }

/-- Run `createVersion` repeatedly as the owner (snapshot k is taken at time
100 + k), ignoring failures. -/
def iterCreate (s : Store) (caller noteId : Nat) : Nat → Store
  | 0 => s
  | k + 1 =>
    let s' := iterCreate s caller noteId k
    match createVersion s' caller noteId (100 + k) with
    | .ok (s'', _) => s''
    | .error _ => s'

/-- C4 counterexample: starting from an empty archive, after 21 owner
snapshots exactly one retained snapshot carries sequence number 21 (created
at time 120), but the 22nd snapshot is again assigned number 21 (created at
time 121) — the number assigned to a new snapshot is not strictly greater
than every previously assigned number once the 20-cap eviction starts. -/
theorem C4_counterexample :
    ((iterCreate storeOnlyNote 10 1 21).versions.filter
        (fun v => v.versionNumber == 21)).map NoteVersion.createdAt = [120] ∧
    ((iterCreate storeOnlyNote 10 1 22).versions.filter
        (fun v => v.versionNumber == 21)).map NoteVersion.createdAt = [120, 121] :=
  ⟨by rfl, by rfl⟩

/-- C4 (amended): a new snapshot is assigned sequence number
(count of currently retained snapshots) + 1; numbers therefore start at 1 and
are strictly greater than all retained numbers as long as every retained
number is at most the retained count (true until the cap is reached, after
which the count stays 20 and the number 21 repeats). -/
theorem C4_versionNumber_assignment (s : Store) (caller noteId now : Nat) (note : Note)
    (hfind : findNote s noteId = some note) (hown : note.userId = caller) :
    ∃ s' v, createVersion s caller noteId now = .ok (s', v) ∧
      v.versionNumber = versionCount s noteId + 1 ∧
      ((∀ w ∈ versionsFor s noteId, w.versionNumber ≤ versionCount s noteId) →
        ∀ w ∈ versionsFor s noteId, w.versionNumber < v.versionNumber) := by
  have hfind' : s.notes.find? (fun n => n.id == noteId) = some note := hfind
  have hid : note.id = noteId := by
    simpa using List.find?_some hfind'
  refine ⟨{ insertVersion s
      { id := s.nextVersionId, noteId := note.id, title := note.title,
        content := note.content, tags := note.tags,
        versionNumber := versionCount s note.id + 1,
        createdBy := caller, createdAt := now } with
      nextVersionId := s.nextVersionId + 1 },
    { id := s.nextVersionId, noteId := note.id, title := note.title,
      content := note.content, tags := note.tags,
      versionNumber := versionCount s note.id + 1,
      createdBy := caller, createdAt := now }, ?_, by rw [hid], ?_⟩
  · simp [createVersion, findNote, hfind', hown]
  · intro hbd w hw
    have h1 : w.versionNumber ≤ versionCount s noteId := hbd w hw
    show w.versionNumber < versionCount s note.id + 1
    rw [hid]
    exact Nat.lt_succ_of_le h1

/-- C4 witness: on a store with one retained snapshot (numbered 1), the
owner's new snapshot gets number 2, strictly above every retained number. -/
theorem C4_versionNumber_assignment_witness :
    ∃ s' v, createVersion storeWithVersion 10 1 50 = .ok (s', v) ∧
      v.versionNumber = 2 ∧
      ∀ w ∈ versionsFor storeWithVersion 1, w.versionNumber < v.versionNumber := by
  obtain ⟨s', v, h1, h2, h3⟩ :=
    C4_versionNumber_assignment storeWithVersion 10 1 50 sampleNote rfl rfl
  exact ⟨s', v, h1, by rw [h2]; rfl, h3 (by decide)⟩

/-! ### C5 — the 20-snapshot cap and oldest-first eviction -/

/-- C5: the capped insert of the pre-save hook keeps at most 20 snapshots per
note; below the cap it merely appends, and at the cap it evicts exactly one
oldest-by-creation-time snapshot in the same operation, so 19 of the previous
20 remain (a sublist of the old archive) plus the new one. -/
theorem C5_cap_eviction (s : Store) (v : NoteVersion)
    (hle : versionCount s v.noteId ≤ 20) :
    versionCount (insertVersion s v) v.noteId ≤ 20 ∧
    (versionCount s v.noteId < 20 →
      versionsFor (insertVersion s v) v.noteId = versionsFor s v.noteId ++ [v]) ∧
    (versionCount s v.noteId = 20 →
      ∃ evicted ∈ versionsFor s v.noteId,
        (∀ w ∈ versionsFor s v.noteId, evicted.createdAt ≤ w.createdAt) ∧
        versionsFor (insertVersion s v) v.noteId =
          (versionsFor s v.noteId).eraseP
            (fun w => w.createdAt == oldestCreatedAt (versionsFor s v.noteId)) ++ [v] ∧
        ((versionsFor s v.noteId).eraseP
            (fun w => w.createdAt == oldestCreatedAt (versionsFor s v.noteId))).length = 19 ∧
        ((versionsFor s v.noteId).eraseP
            (fun w => w.createdAt == oldestCreatedAt (versionsFor s v.noteId))).Sublist
          (versionsFor s v.noteId)) := by
  by_cases hcase : 20 ≤ (versionsFor s v.noteId).length
  · -- at (or above) the cap: the hook evicts the oldest snapshot first
    have hlen : (versionsFor s v.noteId).length = 20 := Nat.le_antisymm hle hcase
    have hne : versionsFor s v.noteId ≠ [] := by
      intro hnil
      rw [hnil] at hlen
      simp at hlen
    obtain ⟨ev, hevmem, hevat⟩ := oldestCreatedAt_mem (versionsFor s v.noteId) hne
    have hins : insertVersion s v =
        { s with versions := s.versions.eraseP (fun x => x.noteId == v.noteId &&
            x.createdAt == oldestCreatedAt (versionsFor s v.noteId)) ++ [v] } := by
      simp [insertVersion, hcase]
    have himp : ∀ x : NoteVersion,
        (x.noteId == v.noteId &&
          x.createdAt == oldestCreatedAt (versionsFor s v.noteId)) = true →
        (x.noteId == v.noteId) = true := by
      intro x hx
      simp only [Bool.and_eq_true] at hx
      exact hx.1
    have hfor : versionsFor (insertVersion s v) v.noteId =
        (versionsFor s v.noteId).eraseP
          (fun w => w.createdAt == oldestCreatedAt (versionsFor s v.noteId)) ++ [v] := by
      rw [hins]
      show (s.versions.eraseP
          (fun x => x.noteId == v.noteId &&
            x.createdAt == oldestCreatedAt (versionsFor s v.noteId)) ++ [v]).filter
          (fun x => x.noteId == v.noteId) = _
      rw [List.filter_append, filter_eraseP_comm _ _ _ himp]
      have h2 : ((s.versions.filter (fun x => x.noteId == v.noteId)).eraseP
            (fun x => x.noteId == v.noteId &&
              x.createdAt == oldestCreatedAt (versionsFor s v.noteId)))
          = (versionsFor s v.noteId).eraseP
            (fun w => w.createdAt == oldestCreatedAt (versionsFor s v.noteId)) := by
        apply eraseP_congr
        intro x hx
        have hxid : (x.noteId == v.noteId) = true := (List.mem_filter.mp hx).2
        rw [hxid, Bool.true_and]
      rw [h2]
      simp [versionsFor]
    have hq : (ev.createdAt == oldestCreatedAt (versionsFor s v.noteId)) = true := by
      simpa using hevat
    have hlen19 : ((versionsFor s v.noteId).eraseP
        (fun w => w.createdAt == oldestCreatedAt (versionsFor s v.noteId))).length = 19 := by
      rw [List.length_eraseP_of_mem hevmem hq, hlen]
    refine ⟨?_, ?_, ?_⟩
    · rw [versionCount, hfor, List.length_append, hlen19]
      simp
    · intro hlt
      rw [versionCount] at hlt
      omega
    · intro _
      refine ⟨ev, hevmem, ?_, hfor, hlen19, List.eraseP_sublist _⟩
      intro w hw
      rw [hevat]
      exact oldestCreatedAt_le _ w hw
  · -- below the cap: plain append
    have hins : insertVersion s v = { s with versions := s.versions ++ [v] } := by
      simp [insertVersion, hcase]
    have hfor : versionsFor (insertVersion s v) v.noteId =
        versionsFor s v.noteId ++ [v] := by
      rw [hins]
      show (s.versions ++ [v]).filter (fun x => x.noteId == v.noteId) = _
      rw [List.filter_append]
      simp [versionsFor]
    refine ⟨?_, fun _ => hfor, ?_⟩
    · rw [versionCount, hfor, List.length_append]
      have hlt : (versionsFor s v.noteId).length < 20 := Nat.lt_of_not_le hcase
      simp [versionCount] at hlt ⊢
      omega
    · intro h20
      rw [versionCount] at h20
      exact absurd (le_of_eq h20.symm) hcase

/-- A Version Archive holding 20 snapshots of note 1, numbered 1..20,
created at times 100..119. -/
def twentyVersions : List NoteVersion :=
  (List.range 20).map (fun k =>
    { id := k, noteId := 1, title := "t", content := "c", tags := ["work"],
      versionNumber := k + 1, createdBy := 10, createdAt := 100 + k })

/-- Store at the retention cap for note 1. -/
def storeAtCap : Store :=
  { notes := [sampleNote], versions := twentyVersions, nextVersionId := 20 }

/-- The 21st snapshot of note 1. -/
def capVersion : NoteVersion :=
  { id := 20, noteId := 1, title := "t2", content := "c2", tags := ["work"],
    versionNumber := 21, createdBy := 10, createdAt := 120 }

/-- C5 witness: inserting the 21st snapshot into the at-cap store keeps the
count at 20 and evicts the snapshot created at time 100. -/
theorem C5_cap_eviction_witness :
    versionCount (insertVersion storeAtCap capVersion) capVersion.noteId ≤ 20 ∧
    (versionCount storeAtCap capVersion.noteId = 20 →
      ∃ evicted ∈ versionsFor storeAtCap capVersion.noteId,
        (∀ w ∈ versionsFor storeAtCap capVersion.noteId,
          evicted.createdAt ≤ w.createdAt) ∧
        versionsFor (insertVersion storeAtCap capVersion) capVersion.noteId =
          (versionsFor storeAtCap capVersion.noteId).eraseP
            (fun w => w.createdAt ==
              oldestCreatedAt (versionsFor storeAtCap capVersion.noteId)) ++ [capVersion] ∧
        ((versionsFor storeAtCap capVersion.noteId).eraseP
            (fun w => w.createdAt ==
              oldestCreatedAt (versionsFor storeAtCap capVersion.noteId))).length = 19 ∧
        ((versionsFor storeAtCap capVersion.noteId).eraseP
            (fun w => w.createdAt ==
              oldestCreatedAt (versionsFor storeAtCap capVersion.noteId))).Sublist
          (versionsFor storeAtCap capVersion.noteId)) := by
  have h := C5_cap_eviction storeAtCap capVersion (by decide)
  exact ⟨h.1, h.2.2⟩

/-! ### C6 — sharing a note with a grantee -/

/-- C6: for an owner's Grant call whose email resolves to a grantee other
than the caller: an existing grant with a different permission is updated in
place (same grantees, same statuses, target's permission set to the request,
all other grants untouched); an existing grant with the identical permission
fails with Conflict (no store change is returned); and with no existing grant
a new one is appended with status `pending`. -/
theorem C6_share_grant (s : Store) (users : List User) (caller noteId now : Nat)
    (email : String) (perm : Permission) (note : Note) (target : User)
    (hemail : email ≠ "")
    (hfind : findNote s noteId = some note) (hown : note.userId = caller)
    (huser : findUserByEmail users email = some target)
    (hself : target.id ≠ caller) :
    (∀ g0, note.sharedWith.find? (fun g => g.userId == target.id) = some g0 →
      (g0.permission ≠ perm → ∃ note2 : Note,
        shareNote s users caller noteId email perm now = .ok (saveNote s note2 now) ∧
        note2.sharedWith.map ShareGrant.status = note.sharedWith.map ShareGrant.status ∧
        note2.sharedWith.map ShareGrant.userId = note.sharedWith.map ShareGrant.userId ∧
        (∀ g2 ∈ note2.sharedWith, g2.userId = target.id → g2.permission = perm) ∧
        (∀ g2 ∈ note2.sharedWith, g2.userId ≠ target.id → g2 ∈ note.sharedWith)) ∧
      (g0.permission = perm →
        shareNote s users caller noteId email perm now = .error .Conflict)) ∧
    (note.sharedWith.find? (fun g => g.userId == target.id) = Option.none →
      ∃ note2 : Note,
        shareNote s users caller noteId email perm now = .ok (saveNote s note2 now) ∧
        note2.sharedWith = note.sharedWith ++
          [{ userId := target.id, permission := perm, sharedAt := now,
             status := ShareStatus.pending }]) := by
  have hfind' : s.notes.find? (fun n => n.id == noteId) = some note := hfind
  constructor
  · intro g0 hg0
    constructor
    · intro hdiff
      refine ⟨{ note with sharedWith := note.sharedWith.map (fun x =>
          if x.userId == target.id then { x with permission := perm } else x) },
        ?_, ?_, ?_, ?_, ?_⟩
      · simp [shareNote, findNote, hfind', hown, huser, hself, hemail, hg0, hdiff]
      · rw [List.map_map]
        have hc : ShareGrant.status ∘ (fun x : ShareGrant =>
            if x.userId == target.id then { x with permission := perm } else x)
            = ShareGrant.status := by
          funext x
          by_cases hx : x.userId = target.id
          · simp [hx]
          · simp [hx]
        rw [hc]
      · rw [List.map_map]
        have hc : ShareGrant.userId ∘ (fun x : ShareGrant =>
            if x.userId == target.id then { x with permission := perm } else x)
            = ShareGrant.userId := by
          funext x
          by_cases hx : x.userId = target.id
          · simp [hx]
          · simp [hx]
        rw [hc]
      · intro g2 hg2 hgid
        rcases List.mem_map.mp hg2 with ⟨x, hxmem, hxeq⟩
        by_cases hx : (x.userId == target.id) = true
        · rw [if_pos hx] at hxeq
          rw [← hxeq]
        · rw [if_neg hx] at hxeq
          rw [← hxeq] at hgid
          exact absurd (by simpa using hgid) (by simpa using hx)
      · intro g2 hg2 hgid
        rcases List.mem_map.mp hg2 with ⟨x, hxmem, hxeq⟩
        by_cases hx : (x.userId == target.id) = true
        · rw [if_pos hx] at hxeq
          rw [← hxeq] at hgid
          exact absurd (by simpa using hx) (by simpa using hgid)
        · rw [if_neg hx] at hxeq
          rw [← hxeq]
          exact hxmem
    · intro hsame
      simp [shareNote, findNote, hfind', hown, huser, hself, hemail, hg0, hsame]
  · intro hnone
    refine ⟨{ note with sharedWith := note.sharedWith ++
        [{ userId := target.id, permission := perm, sharedAt := now,
           status := ShareStatus.pending }] }, ?_, rfl⟩
    simp [shareNote, findNote, hfind', hown, huser, hself, hemail, hnone]

/-- The two registered users of the concrete sharing scenarios. -/
def sampleUsers : List User :=
  [{ id := 10, name := "Owner", email := "owner@x.com" },
   { id := 20, name := "Bob", email := "bob@x.com" }]

/-- C6 witness: on the concrete store — updating an existing editor grant to
`view` keeps grantees and statuses and changes the permission; re-granting the
identical `edit` permission is a Conflict; granting to a user with no grant
appends a pending grant. -/
theorem C6_share_grant_witness :
    (∃ note2 : Note,
      shareNote storeSharedEdit sampleUsers 10 1 "Bob@X.com" Permission.view 9 =
        .ok (saveNote storeSharedEdit note2 9) ∧
      note2.sharedWith.map ShareGrant.status =
        noteSharedEdit.sharedWith.map ShareGrant.status ∧
      note2.sharedWith.map ShareGrant.userId =
        noteSharedEdit.sharedWith.map ShareGrant.userId ∧
      (∀ g2 ∈ note2.sharedWith, g2.userId = 20 → g2.permission = Permission.view) ∧
      (∀ g2 ∈ note2.sharedWith, g2.userId ≠ 20 → g2 ∈ noteSharedEdit.sharedWith)) ∧
    (shareNote storeSharedEdit sampleUsers 10 1 "bob@x.com" Permission.edit 9 =
      .error .Conflict) ∧
    (∃ note2 : Note,
      shareNote storeOnlyNote sampleUsers 10 1 "bob@x.com" Permission.edit 9 =
        .ok (saveNote storeOnlyNote note2 9) ∧
      note2.sharedWith = sampleNote.sharedWith ++
        [{ userId := 20, permission := Permission.edit, sharedAt := 9,
           status := ShareStatus.pending }]) := by
  refine ⟨?_, ?_, ?_⟩
  · exact ((C6_share_grant storeSharedEdit sampleUsers 10 1 9 "Bob@X.com"
      Permission.view noteSharedEdit { id := 20, name := "Bob", email := "bob@x.com" }
      (by decide) rfl rfl (by decide) (by decide)).1 grantEditAccepted rfl).1 (by decide)
  · exact ((C6_share_grant storeSharedEdit sampleUsers 10 1 9 "bob@x.com"
      Permission.edit noteSharedEdit { id := 20, name := "Bob", email := "bob@x.com" }
      (by decide) rfl rfl (by decide) (by decide)).1 grantEditAccepted rfl).2 rfl
  · exact (C6_share_grant storeOnlyNote sampleUsers 10 1 9 "bob@x.com"
      Permission.edit sampleNote { id := 20, name := "Bob", email := "bob@x.com" }
      (by decide) rfl rfl (by decide) (by decide)).2 rfl

/-! ### C7 — resolving a public share link -/

/-- C7: ResolveLink fails with NotFound when no note stores the token; fails
with Gone — an error kind distinct from NotFound — when a note stores it but
its expiry is set and has passed; and otherwise returns the read-only
projection (a type without owner-only fields) with permission fixed to
`view`. -/
theorem C7_resolve_link (s : Store) (users : List User) (token : String) (now : Nat) :
    (s.notes.find? (fun n => n.shareToken == some token) = Option.none →
      getSharedNote s users token now = .error .NotFound) ∧
    (∀ note, s.notes.find? (fun n => n.shareToken == some token) = some note →
      (∀ e, note.shareTokenExpiry = some e → e < now →
        getSharedNote s users token now = .error .Gone) ∧
      (∀ e, note.shareTokenExpiry = some e → ¬ e < now →
        getSharedNote s users token now =
          .ok (projectSharedNote users note, Permission.view)) ∧
      (note.shareTokenExpiry = Option.none →
        getSharedNote s users token now =
          .ok (projectSharedNote users note, Permission.view))) ∧
    Err.Gone ≠ Err.NotFound := by
  refine ⟨?_, ?_, by decide⟩
  · intro hnone
    simp [getSharedNote, hnone]
  · intro note hfound
    refine ⟨?_, ?_, ?_⟩
    · intro e hexp hlt
      simp [getSharedNote, hfound, hexp, hlt]
    · intro e hexp hge
      simp [getSharedNote, hfound, hexp, hge]
    · intro hexp
      simp [getSharedNote, hfound, hexp]

/-- A note carrying a live share link (no expiry). -/
def noteWithLink : Note :=
  { sampleNote with shareToken := some "tok", shareTokenExpiry := Option.none }

/-- A note carrying a share link that expired at time 7. -/
def noteWithExpiredLink : Note :=
  { sampleNote with id := 2, shareToken := some "tok2", shareTokenExpiry := some 7 }

/-- Store with one live-link note and one expired-link note. -/
def storeWithLinks : Store :=
  { notes := [noteWithLink, noteWithExpiredLink], versions := [], nextVersionId := 0 }

/-- C7 witness: at time 8 in the concrete store, an unknown token is NotFound,
the expired token is Gone, and the live token resolves to the view-only
projection. -/
theorem C7_resolve_link_witness :
    (getSharedNote storeWithLinks sampleUsers "missing" 8 = .error .NotFound) ∧
    (getSharedNote storeWithLinks sampleUsers "tok2" 8 = .error .Gone) ∧
    (getSharedNote storeWithLinks sampleUsers "tok" 8 =
      .ok (projectSharedNote sampleUsers noteWithLink, Permission.view)) :=
  ⟨(C7_resolve_link storeWithLinks sampleUsers "missing" 8).1 (by decide),
   ((C7_resolve_link storeWithLinks sampleUsers "tok2" 8).2.1 noteWithExpiredLink
      (by decide)).1 7 rfl (by decide),
   ((C7_resolve_link storeWithLinks sampleUsers "tok" 8).2.1 noteWithLink
      (by decide)).2.2 rfl⟩

/-! ### C8 — restoring a version -/

/-- The freshly inserted version is among the store's versions. -/
theorem mem_insertVersion_self (s : Store) (v : NoteVersion) :
    v ∈ (insertVersion s v).versions := by
  unfold insertVersion
  simp

/-- C8: Restore is owner-only (Forbidden otherwise), NotFound when the version
does not belong to the note, and otherwise returns a note whose
title/content/tags come from the target version while id, owner, flags,
attachments, sharing grants, share-link fields and reminder fields are
unchanged — and the store now retains a snapshot of the pre-restore
title/content/tags taken at this call. -/
theorem C8_restore (s : Store) (caller noteId versionId now : Nat) (note : Note)
    (hfind : findNote s noteId = some note) :
    (note.userId ≠ caller →
      restoreVersion s caller noteId versionId now = .error .Forbidden) ∧
    (note.userId = caller →
      s.versions.find? (fun v => v.id == versionId && v.noteId == note.id) = Option.none →
      restoreVersion s caller noteId versionId now = .error .NotFound) ∧
    (∀ v, note.userId = caller →
      s.versions.find? (fun w => w.id == versionId && w.noteId == note.id) = some v →
      ∃ s2 n, restoreVersion s caller noteId versionId now = .ok (s2, n) ∧
        n.title = v.title ∧ n.content = v.content ∧ n.tags = v.tags ∧
        n.id = note.id ∧ n.userId = note.userId ∧
        n.isPinned = note.isPinned ∧ n.isArchived = note.isArchived ∧
        n.attachments = note.attachments ∧ n.sharedWith = note.sharedWith ∧
        n.shareToken = note.shareToken ∧ n.shareTokenExpiry = note.shareTokenExpiry ∧
        n.reminderAt = note.reminderAt ∧ n.reminderStatus = note.reminderStatus ∧
        ∃ snap ∈ versionsFor s2 noteId,
          snap.title = note.title ∧ snap.content = note.content ∧
          snap.tags = note.tags ∧ snap.createdAt = now ∧
          snap.versionNumber = versionCount s noteId + 1) := by
  have hfind' : s.notes.find? (fun n => n.id == noteId) = some note := hfind
  have hid : note.id = noteId := by
    simpa using List.find?_some hfind'
  refine ⟨?_, ?_, ?_⟩
  · intro hne
    simp [restoreVersion, findNote, hfind', hne]
  · intro heq hvnone
    simp [restoreVersion, findNote, hfind', heq, hvnone]
  · intro v heq hv
    refine ⟨saveNote
        { insertVersion s
            { id := s.nextVersionId, noteId := note.id, title := note.title,
              content := note.content, tags := note.tags,
              versionNumber := versionCount s note.id + 1,
              createdBy := caller, createdAt := now } with
          nextVersionId := s.nextVersionId + 1 }
        { note with title := v.title, content := v.content, tags := v.tags } now,
      { note with title := v.title, content := v.content, tags := v.tags },
      ?_, rfl, rfl, rfl, rfl, rfl, rfl, rfl, rfl, rfl, rfl, rfl, rfl, rfl, ?_⟩
    · simp [restoreVersion, findNote, hfind', heq, hv]
    · refine ⟨{ id := s.nextVersionId, noteId := note.id, title := note.title,
                content := note.content, tags := note.tags,
                versionNumber := versionCount s note.id + 1,
                createdBy := caller, createdAt := now }, ?_, rfl, rfl, rfl, rfl, ?_⟩
      · exact List.mem_filter.mpr
          ⟨mem_insertVersion_self s _, by simp [hid]⟩
      · show versionCount s note.id + 1 = versionCount s noteId + 1
        rw [hid]

/-- C8 witness: in the concrete one-snapshot store, a stranger cannot restore,
a missing version is NotFound, and the owner's restore of version 0 rewrites
title/content/tags from the snapshot, keeps every other field, and leaves a
pre-restore snapshot (numbered 2, taken at time 60) in the archive. -/
theorem C8_restore_witness :
    (restoreVersion storeWithVersion 20 1 0 60 = .error .Forbidden) ∧
    (restoreVersion storeWithVersion 10 1 5 60 = .error .NotFound) ∧
    (∃ s2 n, restoreVersion storeWithVersion 10 1 0 60 = .ok (s2, n) ∧
      n.title = sampleVersion.title ∧ n.content = sampleVersion.content ∧
      n.tags = sampleVersion.tags ∧
      n.id = sampleNote.id ∧ n.userId = sampleNote.userId ∧
      n.isPinned = sampleNote.isPinned ∧ n.isArchived = sampleNote.isArchived ∧
      n.attachments = sampleNote.attachments ∧ n.sharedWith = sampleNote.sharedWith ∧
      n.shareToken = sampleNote.shareToken ∧
      n.shareTokenExpiry = sampleNote.shareTokenExpiry ∧
      n.reminderAt = sampleNote.reminderAt ∧
      n.reminderStatus = sampleNote.reminderStatus ∧
      ∃ snap ∈ versionsFor s2 1,
        snap.title = sampleNote.title ∧ snap.content = sampleNote.content ∧
        snap.tags = sampleNote.tags ∧ snap.createdAt = 60 ∧
        snap.versionNumber = versionCount storeWithVersion 1 + 1) :=
  ⟨(C8_restore storeWithVersion 20 1 0 60 sampleNote rfl).1 (by decide),
   (C8_restore storeWithVersion 10 1 5 60 sampleNote rfl).2.1 rfl (by decide),
   (C8_restore storeWithVersion 10 1 0 60 sampleNote rfl).2.2 sampleVersion rfl
     (by decide)⟩

/-! ### C9 — the reminder sweep -/

/-- The sweep query, unfolded: due means a set reminder time that has passed
and status `pending`. -/
theorem dueForReminder_iff (now : Nat) (n : Note) :
    dueForReminder now n = true ↔
      ((∃ t, n.reminderAt = some t ∧ t ≤ now) ∧
        n.reminderStatus = ReminderStatus.pending) := by
  unfold dueForReminder
  cases h : n.reminderAt with
  | none => simp [h]
  | some t => simp [h]

/-- C9: the sweep attempts exactly one dispatch per note whose reminder time
is ≤ now with status `pending` (in list order); pointwise, a non-due note is
untouched, a due note whose dispatch succeeds transitions to `sent` keeping
its identity and content, and a due note whose dispatch fails is left
unchanged (still `pending`) without affecting the processing of any other
note. -/
theorem C9_reminder_sweep (notes : List Note) (dispatchOk : Nat → Bool) (now : Nat) :
    ((checkReminders notes dispatchOk now).2 =
      (notes.filter (dueForReminder now)).map Note.id) ∧
    (∀ i, i ∈ (checkReminders notes dispatchOk now).2 ↔
      ∃ n ∈ notes, n.id = i ∧ n.reminderStatus = ReminderStatus.pending ∧
        ∃ t, n.reminderAt = some t ∧ t ≤ now) ∧
    List.Forall₂ (fun n n2 =>
        (dueForReminder now n = false → n2 = n) ∧
        (dueForReminder now n = true → dispatchOk n.id = true →
          n2.reminderStatus = ReminderStatus.sent ∧ n2.id = n.id ∧
          n2.title = n.title ∧ n2.content = n.content ∧
          n2.reminderAt = n.reminderAt) ∧
        (dueForReminder now n = true → dispatchOk n.id = false → n2 = n))
      notes (checkReminders notes dispatchOk now).1 := by
  refine ⟨rfl, ?_, ?_⟩
  · intro i
    show i ∈ (notes.filter (dueForReminder now)).map Note.id ↔ _
    rw [List.mem_map]
    constructor
    · rintro ⟨n, hn, hni⟩
      have hmem := (List.mem_filter.mp hn).1
      have hdue := (List.mem_filter.mp hn).2
      obtain ⟨⟨t, hat, htle⟩, hst⟩ := (dueForReminder_iff now n).mp hdue
      exact ⟨n, hmem, hni, hst, t, hat, htle⟩
    · rintro ⟨n, hmem, hni, hst, t, hat, htle⟩
      refine ⟨n, List.mem_filter.mpr ⟨hmem, ?_⟩, hni⟩
      exact (dueForReminder_iff now n).mpr ⟨⟨t, hat, htle⟩, hst⟩
  · show List.Forall₂ _ notes (notes.map _)
    rw [List.forall₂_map_right_iff, List.forall₂_same]
    intro n hn
    refine ⟨?_, ?_, ?_⟩
    · intro hdue
      simp [hdue]
    · intro hdue hok
      simp [hdue, hok]
    · intro hdue hnok
      simp [hdue, hnok]

/-- A due reminder (time 90) whose dispatch will fail. -/
def sweepNoteA : Note :=
  { sampleNote with
    id := 1
    reminderAt := some 90
    reminderStatus := ReminderStatus.pending }

/-- A due reminder (time 95) whose dispatch will succeed. -/
def sweepNoteB : Note :=
  { sampleNote with
    id := 2
    reminderAt := some 95
    reminderStatus := ReminderStatus.pending }

/-- A pending reminder that is not yet due (time 200). -/
def sweepNoteC : Note :=
  { sampleNote with
    id := 3
    reminderAt := some 200
    reminderStatus := ReminderStatus.pending }

/-- The notes collection of the concrete sweep scenario. -/
def sweepNotes : List Note := [sweepNoteA, sweepNoteB, sweepNoteC]

/-- Dispatch oracle of the scenario: only note 2's email goes through. -/
def sweepDispatch : Nat → Bool := fun i => i == 2

/-- C9 witness: sweeping at time 100 attempts dispatch for exactly the two due
notes (1 and 2, in order) even though note 1's dispatch fails; afterwards
note 1 is still `pending`, note 2 is `sent`, and the not-yet-due note 3 is
untouched. -/
theorem C9_reminder_sweep_witness :
    ((checkReminders sweepNotes sweepDispatch 100).2 =
      (sweepNotes.filter (dueForReminder 100)).map Note.id) ∧
    ((checkReminders sweepNotes sweepDispatch 100).2 = [1, 2]) ∧
    ((checkReminders sweepNotes sweepDispatch 100).1.map Note.reminderStatus =
      [ReminderStatus.pending, ReminderStatus.sent, ReminderStatus.pending]) :=
  ⟨(C9_reminder_sweep sweepNotes sweepDispatch 100).1, by decide, by decide⟩

/-! ### C10 — falsy title/content handling in updateNote -/

/-- C10: in the owner's note update, an absent or empty-string title/content
leaves the stored field unchanged (JavaScript falsy check), so once content
is non-empty no update request can make it empty again (and likewise for the
title). -/
theorem C10_falsy_fields (s : Store) (caller noteId now : Nat) (r : UpdateReq)
    (note : Note) (hfind : findNote s noteId = some note)
    (hown : note.userId = caller) :
    ∃ n : Note, updateNote s caller noteId r now = .ok (saveNote s n now, n) ∧
      ((r.title = Option.none ∨ r.title = some "") → n.title = note.title) ∧
      ((r.content = Option.none ∨ r.content = some "") → n.content = note.content) ∧
      (note.title ≠ "" → n.title ≠ "") ∧
      (note.content ≠ "" → n.content ≠ "") := by
  have hfind' : s.notes.find? (fun n => n.id == noteId) = some note := hfind
  refine ⟨{ note with
      title := jsOr r.title note.title,
      content := jsOr r.content note.content,
      tags := r.tags.getD note.tags,
      isPinned := r.isPinned.getD note.isPinned,
      isArchived := r.isArchived.getD note.isArchived,
      reminderAt := r.reminderAt.getD note.reminderAt,
      reminderStatus := r.reminderStatus.getD note.reminderStatus,
      updatedAt := now }, ?_, ?_, ?_, ?_, ?_⟩
  · simp [updateNote, findNote, hfind', hown]
  · rintro (h | h) <;> simp [jsOr, h]
  · rintro (h | h) <;> simp [jsOr, h]
  · intro hne
    show jsOr r.title note.title ≠ ""
    cases h : r.title with
    | none => simpa [jsOr] using hne
    | some str =>
      by_cases hs : str = ""
      · simpa [jsOr, hs] using hne
      · simp [jsOr, hs]
  · intro hne
    show jsOr r.content note.content ≠ ""
    cases h : r.content with
    | none => simpa [jsOr] using hne
    | some str =>
      by_cases hs : str = ""
      · simpa [jsOr, hs] using hne
      · simp [jsOr, hs]

/-- An update request carrying empty strings for title and content. -/
def emptyFieldsEdit : UpdateReq :=
  { title := some "", content := some "", tags := Option.none,
    isPinned := Option.none, isArchived := Option.none,
    reminderAt := Option.none, reminderStatus := Option.none }

/-- C10 witness: the owner sends title = "" and content = "" for the sample
note (whose content is "c"); both fields keep their stored values and the
content stays non-empty. -/
theorem C10_falsy_fields_witness :
    ∃ n : Note, updateNote storeOnlyNote 10 1 emptyFieldsEdit 5 =
        .ok (saveNote storeOnlyNote n 5, n) ∧
      n.title = sampleNote.title ∧ n.content = sampleNote.content ∧
      n.content ≠ "" := by
  obtain ⟨n, hok, ht, hc, htne, hcne⟩ :=
    C10_falsy_fields storeOnlyNote 10 1 5 emptyFieldsEdit sampleNote rfl rfl
  exact ⟨n, hok, ht (Or.inr rfl), hc (Or.inr rfl), hcne (by decide)⟩

end NotesApp
